import Mathlib

/-!
# Verification of the Inven!RA Activity Provider persistence core

Shallow embedding of the repository's persistence-and-caching core:

* `ap/store_json.py`   — `JsonFileDatabase` (durable flat-file store)
* `ap/persistence_proxy.py` — `PersistenceProxy` (TTL cache + flush-on-write)
* `ap/instance_manager.py`  — `InstanceManager` (activity → instance registry)
* `ap/facade.py`       — `ActivityProviderFacade` (resolve / track / analytics)
* `ap/analytics_proxy.py`   — `AnalyticsPersistenceProxy` (mock analytics)
* `ap/contract_adapter.py`  — `ContractAdapter` (identifier normalization)
* `ap/builder.py`      — `WordSearchGameBuilder`

Modelling conventions:

* ISO-8601 timestamps (`datetime.utcnow()`) and wall-clock seconds
  (`time.time()`) are both modelled as a single `Nat` clock value `now`;
  every clock read inside one operation returns the same `now`.
* Python dicts keyed by strings are modelled as association lists with
  first-match lookup (`alookup`) and replace-or-append assignment
  (`assocUpsert`), which reproduces dict semantics on unique-key lists.
* Exceptions are modelled by returning the post-state together with an
  `Option APErr` (the state is still returned because Python in-place
  mutations performed before a raise survive the raise).
* I/O failure is injected through an explicit parameter (`wk : Bool` for
  the proxy's flush, `WriteFault` for the file layer), since the Python
  code fails exactly when the underlying file operation raises.
-/

/-- Errors surfaced by the core: the adapter's `ValueError` for a missing
activity identifier, and the storage-unavailable condition raised by the
file layer. -/
inductive APErr where
  | activityRequired
  | storageUnavailable
deriving DecidableEq, Repr

/-- `WordSearchGameBuilder.build()` result: the fixed game configuration
dict produced by `ap/builder.py` (the `random.seed(42)` call has no effect
on the returned value). -/
structure GameConfig where
  size : Nat
  words : List String
  seed : Nat
deriving DecidableEq, Repr

/-- `WordSearchGameBuilder.build()` with default arguments. -/
def WordSearchGameBuilder.build : GameConfig :=
  { size := 10
    words := ["APSI", "INVENIRA", "FACADE", "ADAPTER", "PROXY"]
    seed := 42 }

/-- An instance record as persisted by the facade
(`ap/facade.py`, payload built in `resolve_user_url` / `track_game_access`). -/
structure InstanceRecord where
  instance_id : String
  activityID : String
  created_at : Nat
  game_config : GameConfig
  last_access : Option Nat
  access_count : Nat
deriving DecidableEq, Repr

/-- An event as appended by `track_game_access`
(dict with keys `ts`, `type`, `activityID`, `userID`). -/
structure Event where
  ts : Nat
  type : String
  activityID : Option String
  userID : Option String
deriving DecidableEq, Repr

/-- The store snapshot: the JSON object
with keys `instances` (dict) and `events` (list). -/
structure Snapshot where
  instances : List (String × InstanceRecord)
  events : List Event
deriving DecidableEq, Repr

/-- Python `dict.get(k)`: first-match association-list lookup. -/
def alookup {α : Type} : List (String × α) → String → Option α
  | [], _ => none
  | (k', v) :: t, k => if k' = k then some v else alookup t k

/-- Python `d[k] = v`: replace the binding in place, or append it. -/
def assocUpsert {α : Type} : List (String × α) → String → α → List (String × α)
  | [], k, v => [(k, v)]
  | (k', v') :: t, k, v =>
      if k' = k then (k, v) :: t else (k', v') :: assocUpsert t k v

/-! ## File layer: `JsonFileDatabase` (`ap/store_json.py`)

The on-disk target file either holds a complete serialized snapshot or a
truncated one; `_write` serializes the whole snapshot to `filepath + ".tmp"`
and then performs `os.replace(tmp, filepath)`, which is atomic. A fault may
strike while the temp file is being written (`failDuringTmp`, with the
number of bytes already written), or after the temp file is complete but
before `os.replace` runs (`failBeforeReplace`). In both fault cases only
the temp file has been touched. -/

/-- Content of a file: a fully written snapshot, or a truncated
serialization of an intended snapshot (`written` bytes made it to disk). -/
inductive FileData where
  | whole (s : Snapshot)
  | incomplete (intended : Snapshot) (written : Nat)
deriving DecidableEq, Repr

/-- The slice of the filesystem owned by `JsonFileDatabase`:
the target path and the `.tmp` path next to it. -/
structure FS where
  target : FileData
  tmp : Option FileData
deriving DecidableEq, Repr

/-- Where, if anywhere, an I/O fault strikes during `_write`. -/
inductive WriteFault where
  | ok
  | failDuringTmp (written : Nat)
  | failBeforeReplace
deriving DecidableEq, Repr

/-- `JsonFileDatabase._write` / `write_all`: dump the snapshot to the temp
path, then `os.replace` it over the target. A fault leaves only the temp
path touched and raises; the returned `FS` is the filesystem after the
call (post-raise on fault). -/
def JsonFileDatabase.write_all (fs : FS) (data : Snapshot) :
    WriteFault → FS × Option APErr
  | .ok => ({ target := .whole data, tmp := none }, none)
  | .failDuringTmp n =>
      ({ fs with tmp := some (.incomplete data n) }, some .storageUnavailable)
  | .failBeforeReplace =>
      ({ fs with tmp := some (.whole data) }, some .storageUnavailable)

/-- `JsonFileDatabase._read` / `read_all`: parse the target file; a
truncated file fails to parse (`json.load` raises). -/
def JsonFileDatabase.read_all (fs : FS) : Except APErr Snapshot :=
  match fs.target with
  | .whole s => .ok s
  | .incomplete _ _ => .error .storageUnavailable

/-- `JsonFileDatabase.__init__` on a fresh path: the file is initialized
with an empty snapshot. -/
def JsonFileDatabase.initFS : FS :=
  { target := .whole { instances := [], events := [] }, tmp := none }

/-! ## Proxy layer: `PersistenceProxy` (`ap/persistence_proxy.py`) plus the
`InstanceManager` registry, combined into one system state.

At this layer the durable store is known to hold a parseable snapshot
(`disk`), because `write_all` either replaces the target with a complete
snapshot or leaves it untouched (proved at the file layer). A flush that
fails is modelled by `wk = false`: the disk is left unchanged and the
error propagates. -/

/-- Process state: the durable snapshot, the proxy's cache (`_cache`,
`_cache_ts`) and the `InstanceManager` registry. -/
structure SysState where
  disk : Snapshot
  cache : Option Snapshot
  cacheTs : Nat
  registry : List (String × String)
deriving DecidableEq, Repr

/-- Fresh process against a fresh store: empty snapshot on disk, no cache,
empty registry. -/
def SysState.init : SysState :=
  { disk := { instances := [], events := [] }
    cache := none
    cacheTs := 0
    registry := [] }

/-- `PersistenceProxy._ensure_cache`: refresh from disk when the cache is
absent or older than 1 second, else serve the cached snapshot. The final
`Bool` records whether `read_all` was invoked (instrumentation only; it is
not consulted by any operation). -/
def ensureCache (s : SysState) (now : Nat) : Snapshot × SysState × Bool :=
  match s.cache with
  | none => (s.disk, { s with cache := some s.disk, cacheTs := now }, true)
  | some c =>
      if now - s.cacheTs > 1 then
        (s.disk, { s with cache := some s.disk, cacheTs := now }, true)
      else
        (c, s, false)

/-- `PersistenceProxy._flush`: write the cached snapshot through to disk
and stamp `_cache_ts`; on I/O failure (`wk = false`) the disk and the
timestamp are unchanged and the error propagates. -/
def flush (s : SysState) (now : Nat) (wk : Bool) : SysState × Option APErr :=
  match s.cache with
  | none => (s, none)
  | some c =>
      if wk then ({ s with disk := c, cacheTs := now }, none)
      else (s, some .storageUnavailable)

/-- `PersistenceProxy.get_instance`. The trailing `Bool` is the
disk-read flag from `ensureCache`. -/
def get_instance (s : SysState) (now : Nat) (instance_id : String) :
    Option InstanceRecord × SysState × Bool :=
  match ensureCache s now with
  | (data, s1, b) => (alookup data.instances instance_id, s1, b)

/-- `PersistenceProxy.upsert_instance`: ensure the cache, assign the
record into the cached dict (in place), then flush. -/
def upsert_instance (s : SysState) (now : Nat) (instance_id : String)
    (payload : InstanceRecord) (wk : Bool) : SysState × Option APErr :=
  match ensureCache s now with
  | (data, s1, _) =>
      flush { s1 with
                cache := some { data with
                                  instances := assocUpsert data.instances instance_id payload } }
        now wk

/-- `PersistenceProxy.append_event`: ensure the cache, append to the
cached event list (in place), then flush. -/
def append_event (s : SysState) (now : Nat) (e : Event) (wk : Bool) :
    SysState × Option APErr :=
  match ensureCache s now with
  | (data, s1, _) =>
      flush { s1 with cache := some { data with events := data.events ++ [e] } } now wk

/-- Python truthiness of an optional string filter argument. -/
def truthyOpt : Option String → Bool
  | none => false
  | some s => s != ""

/-- `PersistenceProxy.list_events`: ensure the cache, then keep each event
unless a truthy filter disagrees with the corresponding field (the two
`continue` tests of the source loop). -/
def list_events (s : SysState) (now : Nat)
    (activity_id user_id : Option String) : List Event × SysState :=
  match ensureCache s now with
  | (data, s1, _) =>
      (data.events.filter fun e =>
          if truthyOpt activity_id && !(e.activityID == activity_id) then false
          else if truthyOpt user_id && !(e.userID == user_id) then false
          else true,
        s1)

/-! ## Identifier layer: `ContractAdapter` (`ap/contract_adapter.py`) -/

/-- Python `str.strip()`: drop leading and trailing whitespace. -/
def pystrip (s : String) : String :=
  String.mk
    (((s.data.dropWhile Char.isWhitespace).reverse.dropWhile
        Char.isWhitespace).reverse)

/-- `ContractAdapter.adapt_activity_id`: strip, and raise `ValueError`
when the result is empty. -/
def adapt_activity_id (activity_id : String) : Except APErr String :=
  let a := pystrip activity_id
  if a = "" then .error .activityRequired else .ok a

/-- `ContractAdapter.adapt_user_id`: `None` stays `None`; otherwise strip
and map the empty string to `None`. -/
def adapt_user_id : Option String → Option String
  | none => none
  | some u =>
      let t := pystrip u
      if t = "" then none else some t

/-! ## Facade layer: `ActivityProviderFacade` (`ap/facade.py`) -/

/-- `str.rstrip("/")`: remove trailing slash characters. -/
def rstripSlashes (s : String) : String :=
  String.mk ((s.data.reverse.dropWhile (fun c => c == '/')).reverse)

/-- `ActivityProviderFacade._effective_base_url`: prefer a truthy
`public_base_url`, else a non-empty configured `base_url`, else empty. -/
def effective_base_url (baseUrl : String) (pub : Option String) : String :=
  match pub with
  | some p =>
      if p != "" then rstripSlashes p
      else if baseUrl != "" then rstripSlashes baseUrl else ""
  | none => if baseUrl != "" then rstripSlashes baseUrl else ""

/-- Entry URL construction at the end of `resolve_user_url`. -/
def entry_url_for (baseUrl : String) (pub : Option String)
    (aid : String) (uid : Option String) : String :=
  let base := effective_base_url baseUrl pub
  let u := if base != "" then base ++ "/game/" ++ aid else "/game/" ++ aid
  match uid with
  | some usr => if usr != "" then u ++ "?userID=" ++ usr else u
  | none => u

/-- Result dict of `resolve_user_url`. -/
structure UserUrlOut where
  activityID : String
  entry_url : String
  instance_id : String
deriving DecidableEq, Repr

/-- Step 1 of `resolve_user_url`: `InstanceManager.get_instance_id`, with
the `is None` fallback that derives `inst_<aid>` and registers it. -/
def decide_instance_id (s : SysState) (aid : String) : String × SysState :=
  match alookup s.registry aid with
  | some i => (i, s)
  | none =>
      ("inst_" ++ aid,
        { s with registry := assocUpsert s.registry aid ("inst_" ++ aid) })

/-- The fresh-record payload built by `resolve_user_url` (and by
`track_game_access` when no record is persisted yet). -/
def new_instance_payload (iid aid : String) (now : Nat) : InstanceRecord :=
  { instance_id := iid
    activityID := aid
    created_at := now
    game_config := WordSearchGameBuilder.build
    last_access := none
    access_count := 0 }

/-- `ActivityProviderFacade.resolve_user_url`: adapt the identifiers, let
the `InstanceManager` decide the instance id (deriving `inst_<aid>` and
registering it when absent), create and upsert a fresh record when none
is persisted, and build the entry URL. -/
def resolve_user_url (s : SysState) (now : Nat) (activity_id : String)
    (user_id : Option String) (baseUrl : String) (pub : Option String)
    (wk : Bool) : SysState × Except APErr UserUrlOut :=
  match adapt_activity_id activity_id with
  | .error e => (s, .error e)
  | .ok aid =>
      let uid := adapt_user_id user_id
      let (iid, s1) := decide_instance_id s aid
      match get_instance s1 now iid with
      | (existing, s2, _) =>
          let out : UserUrlOut :=
            { activityID := aid
              entry_url := entry_url_for baseUrl pub aid uid
              instance_id := iid }
          match existing with
          | some _ => (s2, .ok out)
          | none =>
              match upsert_instance s2 now iid (new_instance_payload iid aid now) wk with
              | (s3, none) => (s3, .ok out)
              | (s3, some e) => (s3, .error e)

/-- The instance-id expression of `track_game_access`:
`instance_manager.get_instance_id(activity_id) or f"inst_{activity_id}"`
(Python `or`, so a falsy registry value also falls back). -/
def registry_instance_id (reg : List (String × String)) (aid : String) : String :=
  match alookup reg aid with
  | some i => if i != "" then i else "inst_" ++ aid
  | none => "inst_" ++ aid

/-- The `if instance is None:` default of `track_game_access`. -/
def record_or_new (inst0 : Option InstanceRecord) (iid aid : String)
    (now : Nat) : InstanceRecord :=
  match inst0 with
  | some r => r
  | none => new_instance_payload iid aid now

/-- `ActivityProviderFacade.track_game_access`: adapt the identifiers,
derive the instance id (registry value `or` the `inst_<aid>` fallback),
create the record if absent, bump `access_count`, stamp `last_access`,
upsert, then append one `game_access` event. -/
def track_game_access (s : SysState) (now : Nat) (activity_id : String)
    (user_id : Option String) (wk : Bool) : SysState × Option APErr :=
  match adapt_activity_id activity_id with
  | .error e => (s, some e)
  | .ok aid =>
      let uid := adapt_user_id user_id
      let iid := registry_instance_id s.registry aid
      match get_instance s now iid with
      | (inst0, s1, _) =>
          let inst := record_or_new inst0 iid aid now
          let inst := { inst with
                          access_count := inst.access_count + 1
                          last_access := some now }
          match upsert_instance s1 now iid inst wk with
          | (s2, some e) => (s2, some e)
          | (s2, none) =>
              append_event s2 now
                { ts := now
                  type := "game_access"
                  activityID := some aid
                  userID := uid }
                wk

/-- `n` sequential `track_game_access` calls on the same identifiers, the
`k`-th call at time `times k`; stops at the first raised error. -/
def trackN (s : SysState) (times : Nat → Nat) (activity_id : String)
    (user_id : Option String) (wk : Bool) : Nat → SysState × Option APErr
  | 0 => (s, none)
  | n + 1 =>
      match trackN s times activity_id user_id wk n with
      | (s', none) => track_game_access s' (times n) activity_id user_id wk
      | (s', some e) => (s', some e)

/-! ## Analytics: `ActivityProviderFacade.query_analytics` (mock) and
`AnalyticsPersistenceProxy` (`ap/analytics_proxy.py`, mock). -/

/-- A JSON-ish analytic value; decimal literals such as `42.5` are kept
exactly as tenths. -/
inductive JVal where
  | jint (n : Int)
  | jdec (tenths : Int)
  | jstr (s : String)
  | jlist (xs : List String)
deriving DecidableEq, Repr

/-- One `name`/`value` pair of the facade's mock analytics dataset. -/
structure NamedValue where
  name : String
  value : JVal
deriving DecidableEq, Repr

/-- One per-student entry of the facade's mock analytics dataset. -/
structure StudentRow where
  inveniraStdID : Nat
  quantAnalytics : List NamedValue
  qualAnalytics : List NamedValue
deriving DecidableEq, Repr

/-- The normalized `/analytics` payload produced by
`ContractAdapter.adapt_analytics_request`. -/
structure AnalyticsPayload where
  activityID : String
  userID : Option String
  query : String
  params : List (String × String)
deriving DecidableEq, Repr

/-- The fixed `mock_data` list of `ActivityProviderFacade.query_analytics`. -/
def mockData : List StudentRow :=
  [ { inveniraStdID := 1001
      quantAnalytics :=
        [ { name := "tentativas_total", value := .jint 5 }
        , { name := "tentativas_corretas", value := .jint 4 }
        , { name := "tentativas_erradas", value := .jint 1 }
        , { name := "tempo_medio_por_acerto_s", value := .jdec 425 }
        , { name := "percentual_acertos", value := .jint 80 }
        , { name := "percentual_erros", value := .jint 20 } ]
      qualAnalytics :=
        [ { name := "ultima_palavra_encontrada", value := .jstr "house" }
        , { name := "sequencia_cliques"
            value := .jlist ["h(1,1)", "o(1,2)", "u(1,3)", "s(1,4)", "e(1,5)"] } ] }
  , { inveniraStdID := 1002
      quantAnalytics :=
        [ { name := "tentativas_total", value := .jint 3 }
        , { name := "tentativas_corretas", value := .jint 1 }
        , { name := "tentativas_erradas", value := .jint 2 }
        , { name := "tempo_medio_por_acerto_s", value := .jint 60 }
        , { name := "percentual_acertos", value := .jdec 333 }
        , { name := "percentual_erros", value := .jdec 667 } ]
      qualAnalytics :=
        [ { name := "ultima_palavra_encontrada", value := .jstr "cat" }
        , { name := "sequencia_cliques"
            value := .jlist ["c(2,1)", "a(2,2)", "t(2,3)"] } ] } ]

/-- `ActivityProviderFacade.query_analytics`: reads `payload["activityID"]`
and then returns the fixed mock dataset; the query name, the user id and
the stored events play no part. -/
def query_analytics (payload : AnalyticsPayload) : List StudentRow :=
  let _activity_id := payload.activityID
  mockData

/-- `AnalyticsQuery` (`ap/domain_models.py`): activity id plus an
always-present query name. -/
structure AnalyticsQuery where
  activity_id : String
  query : String
deriving DecidableEq, Repr

/-- A value of the analytics proxy's per-student output
(`AnalyticValue` in `ap/domain_models.py`). -/
structure AnalyticValue where
  name : String
  type : String
  value : JVal
deriving DecidableEq, Repr

/-- `StudentAnalytics` (`ap/domain_models.py`). -/
structure StudentAnalytics where
  inveniraStdID : String
  quantAnalytics : List AnalyticValue
  qualAnalytics : List AnalyticValue
deriving DecidableEq, Repr

/-- One row of `AnalyticsPersistenceProxy._mock_students_by_activity`
(dict with keys `inveniraStdID`, `events_count`, `completed_words`,
`hints_used`, `comment`, in insertion order). -/
structure MockStudentRow where
  inveniraStdID : String
  events_count : Nat
  completed_words : Nat
  hints_used : Nat
  comment : String
deriving DecidableEq, Repr

/-- `AnalyticsPersistenceProxy._mock_students_by_activity`. -/
def mockStudentsByActivity : List (String × List MockStudentRow) :=
  [ ("TESTE123",
      [ { inveniraStdID := "1001"
          events_count := 15
          completed_words := 10
          hints_used := 2
          comment := "Aluno terminou a sopa com pequenas dificuldades." }
      , { inveniraStdID := "1002"
          events_count := 8
          completed_words := 5
          hints_used := 0
          comment := "Aluno abandonou a meio." } ]) ]

/-- The metric keys the analytics proxy's filter recognizes alongside the
catch-all name `"all"` (`query.query not in ("all", key)` tests in
`get_analytics_for_activity`). -/
def analyticsProxyQueryKeys : List String :=
  ["all", "events_count", "completed_words", "hints_used", "comment"]

/-- The query names section 4.4 of the specification lists as recognized. -/
def specQueryNames : List String :=
  ["default", "access_count", "events_count", "user_events_count"]

/-- `AnalyticsPersistenceProxy.get_analytics_for_activity`: look the
activity up in the mock table (defaulting to no students), then for each
student keep each metric only when the query is `"all"` or names it,
appending quantitative metrics in the row's key order and the comment to
the qualitative list. -/
def get_analytics_for_activity (q : AnalyticsQuery) : List StudentAnalytics :=
  ((alookup mockStudentsByActivity q.activity_id).getD []).map fun row =>
    { inveniraStdID := row.inveniraStdID
      quantAnalytics :=
        (if q.query = "all" ∨ q.query = "events_count" then
            [{ name := "events_count", type := "integer",
               value := .jint row.events_count }]
          else []) ++
        (if q.query = "all" ∨ q.query = "completed_words" then
            [{ name := "completed_words", type := "integer",
               value := .jint row.completed_words }]
          else []) ++
        (if q.query = "all" ∨ q.query = "hints_used" then
            [{ name := "hints_used", type := "integer",
               value := .jint row.hints_used }]
          else [])
      qualAnalytics :=
        if q.query = "all" ∨ q.query = "comment" then
          [{ name := "comment", type := "text/plain", value := .jstr row.comment }]
        else [] }

/-! ## Invariants and reachability -/

/-- The proxy's cache, when present, agrees with the durable snapshot.
This holds whenever every flush so far succeeded: a refresh copies the
disk into the cache and a successful flush copies the cache onto disk. -/
def CacheConsistent (s : SysState) : Prop :=
  s.cache = none ∨ s.cache = some s.disk

/-- Every registry binding maps an activity id to `inst_` followed by
that same activity id (the only value `set_instance_id` is ever called
with). -/
def RegistryDerived (reg : List (String × String)) : Prop :=
  ∀ p ∈ reg, p.2 = "inst_" ++ p.1

/-- Every persisted instance record is stored under its own
`instance_id`, and that key is `inst_` followed by the record's
`activityID` — the deterministic derivation of the design. -/
def InstancesWellKeyed (snap : Snapshot) : Prop :=
  ∀ p ∈ snap.instances, p.2.instance_id = p.1 ∧ p.1 = "inst_" ++ p.2.activityID

/-- The system invariant maintained by the facade operations when every
flush succeeds. -/
def SysInv (s : SysState) : Prop :=
  CacheConsistent s ∧ RegistryDerived s.registry ∧ InstancesWellKeyed s.disk

/-- Durably stored `access_count` for an activity (0 when no record). -/
def instCount (s : SysState) (aid : String) : Nat :=
  match alookup s.disk.instances ("inst_" ++ aid) with
  | some r => r.access_count
  | none => 0

/-- Durably stored `last_access` for an activity. -/
def lastAccessOf (s : SysState) (aid : String) : Option Nat :=
  match alookup s.disk.instances ("inst_" ++ aid) with
  | some r => r.last_access
  | none => none

/-- States reachable from a fresh process through the facade operations
(`resolve_user_url`, `track_game_access`) and the proxy read operations,
with every flush succeeding. -/
inductive ReachableFacade : SysState → Prop where
  | init : ReachableFacade SysState.init
  | resolve (s : SysState) (now : Nat) (activity_id : String)
      (user_id : Option String) (baseUrl : String) (pub : Option String)
      (s' : SysState) (out : UserUrlOut) :
      ReachableFacade s →
      resolve_user_url s now activity_id user_id baseUrl pub true =
        (s', .ok out) →
      ReachableFacade s'
  | track (s : SysState) (now : Nat) (activity_id : String)
      (user_id : Option String) (s' : SysState) :
      ReachableFacade s →
      track_game_access s now activity_id user_id true = (s', none) →
      ReachableFacade s'
  | read (s : SysState) (now : Nat) (instance_id : String) :
      ReachableFacade s →
      ReachableFacade (get_instance s now instance_id).2.1
  | list (s : SysState) (now : Nat) (activity_id user_id : Option String) :
      ReachableFacade s →
      ReachableFacade (list_events s now activity_id user_id).2

/-! ## Concrete states used to exercise the theorems on closed inputs -/

/-- A record payload used in concrete scenarios. -/
def exRecord : InstanceRecord :=
  { instance_id := "inst_A"
    activityID := "A"
    created_at := 0
    game_config := WordSearchGameBuilder.build
    last_access := none
    access_count := 0 }

/-- A process state holding a fresh, consistent cache of an empty store. -/
def exCachedEmpty : SysState :=
  { disk := { instances := [], events := [] }
    cache := some { instances := [], events := [] }
    cacheTs := 0
    registry := [] }

/-- A small stored event log: two activities, two users. -/
def exEvents : List Event :=
  [ { ts := 1, type := "game_access", activityID := some "A", userID := some "U" }
  , { ts := 2, type := "game_access", activityID := some "B", userID := some "U" }
  , { ts := 3, type := "game_access", activityID := some "A", userID := some "V" }
  , { ts := 4, type := "game_access", activityID := some "A", userID := none } ]

/-- A process state whose durable store holds `exEvents`. -/
def exEventState : SysState :=
  { disk := { instances := [], events := exEvents }
    cache := none
    cacheTs := 0
    registry := [] }

/-! ## Association-list lemmas -/

theorem alookup_assocUpsert_self {α : Type} (l : List (String × α)) (k : String) (v : α) :
    alookup (assocUpsert l k v) k = some v := by
  induction l with
  | nil => simp [assocUpsert, alookup]
  | cons p t ih =>
      obtain ⟨k', v'⟩ := p
      by_cases h : k' = k
      · simp [assocUpsert, alookup, h]
      · simp [assocUpsert, alookup, h, ih]

theorem alookup_assocUpsert_ne {α : Type} (l : List (String × α)) (k k' : String) (v : α)
    (h : k' ≠ k) : alookup (assocUpsert l k v) k' = alookup l k' := by
  have hne : ¬ k = k' := fun hh => h (Eq.symm hh)
  induction l with
  | nil => simp [assocUpsert, alookup, hne]
  | cons p t ih =>
      obtain ⟨k0, v0⟩ := p
      by_cases h0 : k0 = k
      · subst h0
        simp [assocUpsert, alookup, hne]
      · simp [assocUpsert, alookup, h0, ih]

theorem mem_assocUpsert {α : Type} (l : List (String × α)) (k : String) (v : α) :
    ∀ p ∈ assocUpsert l k v, p = (k, v) ∨ p ∈ l := by
  induction l with
  | nil => simp [assocUpsert]
  | cons q t ih =>
      obtain ⟨k0, v0⟩ := q
      intro p hp
      by_cases h0 : k0 = k
      · simp only [assocUpsert, if_pos h0, List.mem_cons] at hp
        rcases hp with h | h
        · exact Or.inl h
        · exact Or.inr (List.mem_cons_of_mem _ h)
      · simp only [assocUpsert, if_neg h0, List.mem_cons] at hp
        rcases hp with h | h
        · exact Or.inr (by simp [h])
        · rcases ih p h with h' | h'
          · exact Or.inl h'
          · exact Or.inr (List.mem_cons_of_mem _ h')

theorem mem_of_alookup {α : Type} (l : List (String × α)) (k : String) (v : α)
    (h : alookup l k = some v) : (k, v) ∈ l := by
  induction l with
  | nil => simp [alookup] at h
  | cons q t ih =>
      obtain ⟨k0, v0⟩ := q
      by_cases h0 : k0 = k
      · subst h0
        simp only [alookup, if_pos rfl] at h
        simp_all
      · simp only [alookup, if_neg h0] at h
        exact List.mem_cons_of_mem _ (ih h)

/-! ## Characterization of the proxy operations under cache consistency -/

theorem ensureCache_of_consistent (s : SysState) (now : Nat) (h : CacheConsistent s) :
    ∃ s1 b, ensureCache s now = (s.disk, s1, b) ∧
      s1.disk = s.disk ∧ s1.registry = s.registry ∧ CacheConsistent s1 := by
  rcases h with h | h
  · refine ⟨{ s with cache := some s.disk, cacheTs := now }, true, ?_, rfl, rfl, Or.inr rfl⟩
    simp [ensureCache, h]
  · by_cases hs : now - s.cacheTs > 1
    · refine ⟨{ s with cache := some s.disk, cacheTs := now }, true, ?_, rfl, rfl, Or.inr rfl⟩
      simp [ensureCache, h, hs]
    · refine ⟨s, false, ?_, rfl, rfl, Or.inr h⟩
      simp [ensureCache, h, hs]

theorem ensureCache_state (s : SysState) (now : Nat) :
    (ensureCache s now).2.1.disk = s.disk ∧
    (ensureCache s now).2.1.registry = s.registry := by
  unfold ensureCache
  rcases hc : s.cache with _ | c
  · simp
  · by_cases hs : now - s.cacheTs > 1 <;> simp [hs]

theorem upsert_instance_ok (s : SysState) (now : Nat) (iid : String)
    (r : InstanceRecord) (h : CacheConsistent s) :
    upsert_instance s now iid r true =
      ({ disk := { instances := assocUpsert s.disk.instances iid r
                   events := s.disk.events }
         cache := some { instances := assocUpsert s.disk.instances iid r
                         events := s.disk.events }
         cacheTs := now
         registry := s.registry }, none) := by
  obtain ⟨s1, b, hec, hd, hr, _⟩ := ensureCache_of_consistent s now h
  simp [upsert_instance, hec, flush, hd, hr]

theorem append_event_ok (s : SysState) (now : Nat) (e : Event)
    (h : CacheConsistent s) :
    append_event s now e true =
      ({ disk := { instances := s.disk.instances
                   events := s.disk.events ++ [e] }
         cache := some { instances := s.disk.instances
                         events := s.disk.events ++ [e] }
         cacheTs := now
         registry := s.registry }, none) := by
  obtain ⟨s1, b, hec, hd, hr, _⟩ := ensureCache_of_consistent s now h
  simp [append_event, hec, flush, hd, hr]

theorem get_instance_of_consistent (s : SysState) (now : Nat) (iid : String)
    (h : CacheConsistent s) :
    ∃ s1 b, get_instance s now iid = (alookup s.disk.instances iid, s1, b) ∧
      s1.disk = s.disk ∧ s1.registry = s.registry ∧ CacheConsistent s1 := by
  obtain ⟨s1, b, hec, hd, hr, hc⟩ := ensureCache_of_consistent s now h
  exact ⟨s1, b, by simp [get_instance, hec], hd, hr, hc⟩

theorem alookup_registry (reg : List (String × String)) (aid i : String)
    (h : RegistryDerived reg) (hl : alookup reg aid = some i) :
    i = "inst_" ++ aid :=
  h (aid, i) (mem_of_alookup reg aid i hl)


theorem registry_instance_id_of_derived (reg : List (String × String))
    (aid : String) (h : RegistryDerived reg) :
    registry_instance_id reg aid = "inst_" ++ aid := by
  unfold registry_instance_id
  rcases hl : alookup reg aid with _ | i
  · rfl
  · have hi := alookup_registry _ _ _ h hl
    simp [hi]

/-- Effect of one successful `track_game_access` call on an invariant
state: the invariant is preserved, the registry is untouched, exactly one
`game_access` event for the adapted activity id is appended, the durable
`access_count` rises by one and `last_access` becomes the call time. -/
theorem track_step (s : SysState) (now : Nat) (rawAid aid : String)
    (uid : Option String) (hInv : SysInv s)
    (haid : adapt_activity_id rawAid = .ok aid) :
    ∃ s', track_game_access s now rawAid uid true = (s', none) ∧ SysInv s' ∧
      s'.registry = s.registry ∧
      s'.disk.events = s.disk.events ++
        [{ ts := now, type := "game_access", activityID := some aid,
           userID := adapt_user_id uid }] ∧
      instCount s' aid = instCount s aid + 1 ∧
      lastAccessOf s' aid = some now ∧
      (∀ k, k ≠ "inst_" ++ aid →
        alookup s'.disk.instances k = alookup s.disk.instances k) := by
  obtain ⟨hc, hreg, hinst⟩ := hInv
  have hiid := registry_instance_id_of_derived s.registry aid hreg
  obtain ⟨s1, b, hget, hd1, hr1, hc1⟩ :=
    get_instance_of_consistent s now ("inst_" ++ aid) hc
  set inst' : InstanceRecord :=
    { record_or_new (alookup s.disk.instances ("inst_" ++ aid))
        ("inst_" ++ aid) aid now with
        access_count := (record_or_new (alookup s.disk.instances ("inst_" ++ aid))
          ("inst_" ++ aid) aid now).access_count + 1
        last_access := some now } with hinstp
  have hup := upsert_instance_ok s1 now ("inst_" ++ aid) inst' hc1
  have hc2 : CacheConsistent
      { disk := { instances := assocUpsert s1.disk.instances ("inst_" ++ aid) inst'
                  events := s1.disk.events }
        cache := some { instances := assocUpsert s1.disk.instances ("inst_" ++ aid) inst'
                        events := s1.disk.events }
        cacheTs := now
        registry := s1.registry } := Or.inr rfl
  have hap := append_event_ok _ now
    { ts := now, type := "game_access", activityID := some aid,
      userID := adapt_user_id uid } hc2
  have hmain : track_game_access s now rawAid uid true =
      append_event
        { disk := { instances := assocUpsert s1.disk.instances ("inst_" ++ aid) inst'
                    events := s1.disk.events }
          cache := some { instances := assocUpsert s1.disk.instances ("inst_" ++ aid) inst'
                          events := s1.disk.events }
          cacheTs := now
          registry := s1.registry } now
        { ts := now, type := "game_access", activityID := some aid,
          userID := adapt_user_id uid } true := by
    simp only [track_game_access, haid, hiid, hget, hup]
  rw [hap] at hmain
  refine ⟨_, hmain, ?_, ?_, ?_, ?_, ?_, ?_⟩
  · refine ⟨Or.inr rfl, ?_, ?_⟩
    · simpa [hr1] using hreg
    · intro p hp
      simp only [hd1] at hp
      rcases mem_assocUpsert _ _ _ p hp with h | h
      · subst h
        rcases hl0 : alookup s.disk.instances ("inst_" ++ aid) with _ | r
        · simp [hinstp, hl0, record_or_new, new_instance_payload]
        · have hmem := hinst _ (mem_of_alookup _ _ _ hl0)
          simp only [hinstp, hl0, record_or_new]
          exact ⟨hmem.1, by simpa using hmem.2⟩
      · exact hinst p h
  · simp [hr1]
  · simp [hd1]
  · simp only [instCount, hd1, alookup_assocUpsert_self, hinstp]
    rcases hl0 : alookup s.disk.instances ("inst_" ++ aid) with _ | r <;>
      simp [hl0, record_or_new, new_instance_payload]
  · simp [lastAccessOf, hd1, alookup_assocUpsert_self, hinstp]
  · intro k hk
    simp [hd1, alookup_assocUpsert_ne _ _ _ _ hk]

/-- Cumulative effect of `k` successful sequential `track_game_access`
calls: every call succeeds, the invariant persists, the counter advances
by one per call and the event log grows by one `game_access` event per
call, in call order. -/
theorem trackN_spec (s : SysState) (times : Nat → Nat) (rawAid aid : String)
    (uid : Option String) (hInv : SysInv s)
    (haid : adapt_activity_id rawAid = .ok aid) :
    ∀ k, ∃ sk, trackN s times rawAid uid true k = (sk, none) ∧ SysInv sk ∧
      sk.registry = s.registry ∧
      instCount sk aid = instCount s aid + k ∧
      sk.disk.events = s.disk.events ++
        (List.range k).map (fun j =>
          { ts := times j, type := "game_access", activityID := some aid,
            userID := adapt_user_id uid }) ∧
      (∀ k', k = k' + 1 → lastAccessOf sk aid = some (times k')) := by
  intro k
  induction k with
  | zero =>
      exact ⟨s, rfl, hInv, rfl, rfl, by simp [trackN], fun k' hk' => by omega⟩
  | succ k ih =>
      obtain ⟨sk, heq, hik, hrk, hck, hek, _⟩ := ih
      obtain ⟨s', heq', hik', hrk', hek', hck', hlk', _⟩ :=
        track_step sk (times k) rawAid aid uid hik haid
      refine ⟨s', ?_, hik', by rw [hrk', hrk], by omega, ?_, ?_⟩
      · simp only [trackN, heq, heq']
      · rw [hek', hek, List.range_succ]
        simp
      · intro k' hk'
        have : k' = k := by omega
        subst this
        exact hlk'

theorem decide_instance_id_of_derived (s : SysState) (aid : String)
    (h : RegistryDerived s.registry) :
    ∃ s1, decide_instance_id s aid = ("inst_" ++ aid, s1) ∧
      s1.disk = s.disk ∧ s1.cache = s.cache ∧ s1.cacheTs = s.cacheTs ∧
      RegistryDerived s1.registry := by
  unfold decide_instance_id
  rcases hl : alookup s.registry aid with _ | i
  · refine ⟨_, rfl, rfl, rfl, rfl, ?_⟩
    intro p hp
    rcases mem_assocUpsert _ _ _ p hp with h0 | h0
    · subst h0; rfl
    · exact h p h0
  · have hi := alookup_registry _ _ _ h hl
    exact ⟨s, by rw [hi], rfl, rfl, rfl, h⟩

/-- Effect of one successful `resolve_user_url` call on an invariant
state: the invariant is preserved, the returned instance id is the
deterministic `inst_<aid>` derivation, a first resolution (no persisted
record) persists the fresh zero-count payload, and a repeat resolution
leaves the durable store untouched. -/
theorem resolve_step (s : SysState) (now : Nat) (rawAid aid : String)
    (uid : Option String) (baseUrl : String) (pub : Option String)
    (hInv : SysInv s) (haid : adapt_activity_id rawAid = .ok aid) :
    ∃ s' out,
      resolve_user_url s now rawAid uid baseUrl pub true = (s', .ok out) ∧
      SysInv s' ∧
      out.instance_id = "inst_" ++ aid ∧ out.activityID = aid ∧
      (alookup s.disk.instances ("inst_" ++ aid) = none →
        alookup s'.disk.instances ("inst_" ++ aid) =
          some (new_instance_payload ("inst_" ++ aid) aid now)) ∧
      (alookup s.disk.instances ("inst_" ++ aid) ≠ none → s'.disk = s.disk) := by
  obtain ⟨hc, hreg, hinst⟩ := hInv
  obtain ⟨s1, hdec, hd1, hca1, hct1, hreg1⟩ :=
    decide_instance_id_of_derived s aid hreg
  have hc1 : CacheConsistent s1 := by
    unfold CacheConsistent
    rw [hca1, hd1]
    exact hc
  obtain ⟨s2, b, hget, hd2, hr2, hc2⟩ :=
    get_instance_of_consistent s1 now ("inst_" ++ aid) hc1
  rcases hl0 : alookup s.disk.instances ("inst_" ++ aid) with _ | r
  · have hup := upsert_instance_ok s2 now ("inst_" ++ aid)
      (new_instance_payload ("inst_" ++ aid) aid now) hc2
    refine ⟨⟨⟨assocUpsert s2.disk.instances ("inst_" ++ aid)
          (new_instance_payload ("inst_" ++ aid) aid now), s2.disk.events⟩,
        some ⟨assocUpsert s2.disk.instances ("inst_" ++ aid)
          (new_instance_payload ("inst_" ++ aid) aid now), s2.disk.events⟩,
        now, s2.registry⟩,
      ⟨aid, entry_url_for baseUrl pub aid (adapt_user_id uid), "inst_" ++ aid⟩,
      ?_, ?_, rfl, rfl, ?_, ?_⟩
    · simp only [resolve_user_url, haid, hdec, hget, hd1, hl0, hup]
    · refine ⟨Or.inr rfl, ?_, ?_⟩
      · simpa [hr2] using hreg1
      · intro p hp
        simp only [hd2, hd1] at hp
        rcases mem_assocUpsert _ _ _ p hp with h0 | h0
        · subst h0
          exact ⟨rfl, rfl⟩
        · exact hinst p h0
    · intro _
      simp [alookup_assocUpsert_self]
    · intro hcontra
      exact absurd rfl hcontra
  · refine ⟨s2,
      ⟨aid, entry_url_for baseUrl pub aid (adapt_user_id uid), "inst_" ++ aid⟩,
      ?_, ⟨hc2, by simpa [hr2] using hreg1, by rw [hd2, hd1]; exact hinst⟩,
      rfl, rfl, ?_, ?_⟩
    · simp only [resolve_user_url, haid, hdec, hget, hd1, hl0]
    · intro hcontra
      cases hcontra
    · intro _
      rw [hd2, hd1]

theorem get_instance_inv (s : SysState) (now : Nat) (iid : String)
    (h : SysInv s) : SysInv (get_instance s now iid).2.1 := by
  obtain ⟨hc, hreg, hinst⟩ := h
  obtain ⟨s1, b, hget, hd1, hr1, hc1⟩ := get_instance_of_consistent s now iid hc
  rw [hget]
  exact ⟨hc1, by rw [hr1]; exact hreg, by rw [hd1]; exact hinst⟩

theorem list_events_inv (s : SysState) (now : Nat)
    (activity_id user_id : Option String) (h : SysInv s) :
    SysInv (list_events s now activity_id user_id).2 := by
  obtain ⟨hc, hreg, hinst⟩ := h
  obtain ⟨s1, b, hec, hd1, hr1, hc1⟩ := ensureCache_of_consistent s now hc
  simp only [list_events, hec]
  exact ⟨hc1, by rw [hr1]; exact hreg, by rw [hd1]; exact hinst⟩

theorem sysInv_init : SysInv SysState.init := by
  refine ⟨Or.inl rfl, ?_, ?_⟩
  · intro p hp
    simp [SysState.init] at hp
  · intro p hp
    simp [SysState.init] at hp

/-- Every state reachable through the facade operations (with successful
flushes) satisfies the system invariant. -/
theorem reachable_inv (s : SysState) (h : ReachableFacade s) : SysInv s := by
  induction h with
  | init => exact sysInv_init
  | resolve s now rawAid uid baseUrl pub s' out _ heq ih =>
      rcases hca : adapt_activity_id rawAid with e | aid
      · simp only [resolve_user_url, hca] at heq
        simp at heq
      · obtain ⟨s'', out', heq', hinv', _⟩ :=
          resolve_step s now rawAid aid uid baseUrl pub ih hca
        rw [heq] at heq'
        cases heq'
        exact hinv'
  | track s now rawAid uid s' _ heq ih =>
      rcases hca : adapt_activity_id rawAid with e | aid
      · simp only [track_game_access, hca] at heq
        simp at heq
      · obtain ⟨s'', heq', hinv', _⟩ := track_step s now rawAid aid uid ih hca
        rw [heq] at heq'
        cases heq'
        exact hinv'
  | read s now iid _ ih => exact get_instance_inv s now iid ih
  | list s now aid uid _ ih => exact list_events_inv s now aid uid ih

/-! ## Claim theorems -/

/-- C2: `writeAll` writes the whole snapshot to a temporary path and only
then atomically replaces the target, so an invocation that fails partway
leaves the previously committed target file intact and readable (a
reader never observes a partially written snapshot), while a completed
invocation replaces it with the full new snapshot. -/
theorem writeAll_atomic_replace (fs : FS) (data prev : Snapshot)
    (f : WriteFault) (hprev : fs.target = .whole prev) :
    (f ≠ .ok →
      (JsonFileDatabase.write_all fs data f).1.target = fs.target ∧
      JsonFileDatabase.read_all (JsonFileDatabase.write_all fs data f).1 =
        .ok prev ∧
      (JsonFileDatabase.write_all fs data f).2 = some .storageUnavailable) ∧
    (f = .ok →
      (JsonFileDatabase.write_all fs data f).1.target = .whole data ∧
      JsonFileDatabase.read_all (JsonFileDatabase.write_all fs data f).1 =
        .ok data ∧
      (JsonFileDatabase.write_all fs data f).2 = none) := by
  cases f <;>
    simp [JsonFileDatabase.write_all, JsonFileDatabase.read_all, hprev]

/-- Witness for C2: on the freshly initialized store, a fault after 3
bytes of the temp file leaves the committed empty snapshot intact and
readable, and reports the storage error. -/
theorem writeAll_atomic_replace_witness :
    (JsonFileDatabase.write_all JsonFileDatabase.initFS
        ⟨[("inst_A", exRecord)], []⟩ (.failDuringTmp 3)).1.target =
      JsonFileDatabase.initFS.target ∧
    JsonFileDatabase.read_all
        (JsonFileDatabase.write_all JsonFileDatabase.initFS
          ⟨[("inst_A", exRecord)], []⟩ (.failDuringTmp 3)).1 =
      .ok ⟨[], []⟩ ∧
    (JsonFileDatabase.write_all JsonFileDatabase.initFS
        ⟨[("inst_A", exRecord)], []⟩ (.failDuringTmp 3)).2 =
      some .storageUnavailable :=
  (writeAll_atomic_replace JsonFileDatabase.initFS
      ⟨[("inst_A", exRecord)], []⟩ ⟨[], []⟩ (.failDuringTmp 3) rfl).1
    (by decide)

/-- C1 counterexample: with a fresh consistent cache, an
`upsert_instance` whose flush fails does propagate the storage error, but
the in-memory cached snapshot is NOT equal to its value before the call —
the record replacement is retained in the cache. -/
theorem upsert_flush_failure_cache_counterexample :
    (upsert_instance exCachedEmpty 0 "inst_A" exRecord false).2 =
      some APErr.storageUnavailable ∧
    (upsert_instance exCachedEmpty 0 "inst_A" exRecord false).1.cache ≠
      exCachedEmpty.cache := by
  decide

/-- C1 amended: when the flush raises, `upsert_instance` and
`append_event` propagate the storage error and leave the durable store
unchanged, but the in-memory cached snapshot retains the in-place
mutation: the upserted record is present in the cache, and the appended
event sits at the end of the cached event list. -/
theorem flush_failure_keeps_cache_mutation (s : SysState) (now : Nat)
    (iid : String) (r : InstanceRecord) (e : Event) :
    ((upsert_instance s now iid r false).2 = some .storageUnavailable ∧
     (upsert_instance s now iid r false).1.disk = s.disk ∧
     ∃ c, (upsert_instance s now iid r false).1.cache = some c ∧
       alookup c.instances iid = some r) ∧
    ((append_event s now e false).2 = some .storageUnavailable ∧
     (append_event s now e false).1.disk = s.disk ∧
     ∃ c, (append_event s now e false).1.cache = some c ∧
       c.events = (ensureCache s now).1.events ++ [e]) := by
  have hd := ensureCache_state s now
  rcases hec : ensureCache s now with ⟨data, s1, b⟩
  rw [hec] at hd
  simp only [] at hd
  refine ⟨⟨?_, ?_, ?_⟩, ⟨?_, ?_, ?_⟩⟩
  · simp [upsert_instance, hec, flush]
  · simp [upsert_instance, hec, flush, hd.1]
  · refine ⟨⟨assocUpsert data.instances iid r, data.events⟩, ?_, ?_⟩
    · simp [upsert_instance, hec, flush]
    · exact alookup_assocUpsert_self _ _ _
  · simp [append_event, hec, flush]
  · simp [append_event, hec, flush, hd.1]
  · refine ⟨⟨data.instances, data.events ++ [e]⟩, ?_, ?_⟩
    · simp [append_event, hec, flush]
    · simp [hec]

/-- C7: after a successful `upsert_instance(id, R)`, a process restart
(fresh proxy, cache discarded, durable snapshot re-read) followed by
`get_instance(id)` returns exactly `R`. -/
theorem upsert_survives_restart (s : SysState) (now now2 : Nat)
    (id : String) (R : InstanceRecord) :
    (upsert_instance s now id R true).2 = none ∧
    (get_instance
        { disk := (upsert_instance s now id R true).1.disk
          cache := none
          cacheTs := 0
          registry := [] } now2 id).1 = some R := by
  rcases hec : ensureCache s now with ⟨data, s1, b⟩
  constructor
  · simp [upsert_instance, hec, flush]
  · simp [upsert_instance, hec, flush, get_instance, ensureCache,
      alookup_assocUpsert_self]

/-- C8: `get_instance` answers from the cached snapshot without touching
the durable store when the cache is at most 1 second old (the returned
state is unchanged and the read flag is `false`), and re-reads the whole
snapshot from the durable store first (read flag `true`, cache replaced
by the disk snapshot) when the cache is absent or older than 1 second. -/
theorem getInstance_cache_freshness (s : SysState) (now : Nat)
    (iid : String) :
    (∀ c, s.cache = some c → now - s.cacheTs ≤ 1 →
      get_instance s now iid = (alookup c.instances iid, s, false)) ∧
    (s.cache = none ∨ now - s.cacheTs > 1 →
      get_instance s now iid =
        (alookup s.disk.instances iid,
          { s with cache := some s.disk, cacheTs := now }, true)) := by
  constructor
  · intro c hcache hfresh
    have hn : ¬ now - s.cacheTs > 1 := by omega
    simp [get_instance, ensureCache, hcache, hn]
  · intro h
    rcases h with h | h
    · simp [get_instance, ensureCache, h]
    · rcases hcache : s.cache with _ | c
      · simp [get_instance, ensureCache, hcache]
      · simp [get_instance, ensureCache, hcache, h]

/-- Witness for C8: on a cache refreshed at time 0 over an empty store,
a call at time 1 is answered from the cache with no disk read, and a
call at time 5 refreshes from disk first. -/
theorem getInstance_cache_freshness_witness :
    get_instance exCachedEmpty 1 "x" = (none, exCachedEmpty, false) ∧
    get_instance exCachedEmpty 5 "x" =
      (none, { exCachedEmpty with cache := some exCachedEmpty.disk, cacheTs := 5 }, true) :=
  ⟨(getInstance_cache_freshness exCachedEmpty 1 "x").1 ⟨[], []⟩ rfl
      (by decide),
   (getInstance_cache_freshness exCachedEmpty 5 "x").2 (Or.inr (by decide))⟩

theorem filter_ext {p q : Event → Bool} (l : List Event)
    (h : ∀ e, p e = q e) : l.filter p = l.filter q := by
  induction l with
  | nil => rfl
  | cons x t ih => simp [List.filter, h x, ih]

/-- C5: with non-empty filter values, `list_events` returns exactly the
stored events matching the activity filter, the AND of both filters when
both are given, the user filter alone when only it is given, and all
stored events when no filter is given — in stored (append) order, since
filtering preserves order. -/
theorem listEvents_filter_correct (s : SysState) (now : Nat) (A U : String)
    (hInv : SysInv s) (hA : A ≠ "") (hU : U ≠ "") :
    (list_events s now (some A) none).1 =
      s.disk.events.filter (fun e => e.activityID == some A) ∧
    (list_events s now (some A) (some U)).1 =
      s.disk.events.filter
        (fun e => e.activityID == some A && e.userID == some U) ∧
    (list_events s now none (some U)).1 =
      s.disk.events.filter (fun e => e.userID == some U) ∧
    (list_events s now none none).1 = s.disk.events := by
  obtain ⟨s1, b, hec, _, _, _⟩ := ensureCache_of_consistent s now hInv.1
  refine ⟨?_, ?_, ?_, ?_⟩
  · simp only [list_events, hec]
    refine filter_ext _ fun e => ?_
    cases hb : (e.activityID == some A) <;> simp [truthyOpt, hA, hb]
  · simp only [list_events, hec]
    refine filter_ext _ fun e => ?_
    cases hb : (e.activityID == some A) <;>
      cases hu : (e.userID == some U) <;> simp [truthyOpt, hA, hU, hb, hu]
  · simp only [list_events, hec]
    refine filter_ext _ fun e => ?_
    cases hu : (e.userID == some U) <;> simp [truthyOpt, hU, hu]
  · simp [list_events, hec, truthyOpt]

/-- Witness for C5 on a concrete four-event log: the activity filter
keeps the three events of activity `A`, the AND of both filters keeps
the single event of activity `A` and user `U`, and omitted filters are
unconstrained. -/
theorem listEvents_filter_correct_witness :
    (list_events exEventState 0 (some "A") none).1 =
      [exEvents.get ⟨0, by decide⟩, exEvents.get ⟨2, by decide⟩,
       exEvents.get ⟨3, by decide⟩] ∧
    (list_events exEventState 0 (some "A") (some "U")).1 =
      [exEvents.get ⟨0, by decide⟩] ∧
    (list_events exEventState 0 none none).1 = exEvents := by
  have hsinv : SysInv exEventState := by
    refine ⟨Or.inl rfl, ?_, ?_⟩ <;> intro p hp <;>
      simp [exEventState] at hp
  have h := listEvents_filter_correct exEventState 0 "A" "U" hsinv
    (by decide) (by decide)
  exact ⟨by rw [h.1]; decide, by rw [h.2.1]; decide, h.2.2.2⟩

/-- C10: an empty-string filter argument behaves exactly like an absent
one, because the source tests filter truthiness rather than presence; in
particular `list_events` with `activity_id = ""` (and no user filter)
returns every stored event, whatever its `activityID`. -/
theorem listEvents_empty_string_filter (s : SysState) (now : Nat)
    (a u : Option String) :
    list_events s now (some "") u = list_events s now none u ∧
    list_events s now a (some "") = list_events s now a none ∧
    (SysInv s → (list_events s now (some "") none).1 = s.disk.events) := by
  refine ⟨?_, ?_, ?_⟩
  · simp [list_events, truthyOpt]
  · simp [list_events, truthyOpt]
  · intro hInv
    obtain ⟨s1, b, hec, _, _, _⟩ := ensureCache_of_consistent s now hInv.1
    simp [list_events, hec, truthyOpt]

/-- Witness for C10: on the concrete four-event log (whose events all
have non-empty activity ids), an empty-string activity filter returns
every stored event, and empty-string filters coincide with absent ones. -/
theorem listEvents_empty_string_filter_witness :
    list_events exEventState 0 (some "") (some "U") =
      list_events exEventState 0 none (some "U") ∧
    (list_events exEventState 0 (some "") none).1 = exEvents := by
  have hsinv : SysInv exEventState := by
    refine ⟨Or.inl rfl, ?_, ?_⟩ <;> intro p hp <;>
      simp [exEventState] at hp
  have h := listEvents_empty_string_filter exEventState 0 (some "A") (some "U")
  exact ⟨h.1, h.2.2 hsinv⟩

/-- C6: for `N ≥ 1` sequential successful track-access calls on a
(normalized, non-empty) activity identifier, each call succeeds, raises
the stored `access_count` by exactly 1 (so by `k + 1` after the first
`k + 1` calls), sets `last_access` to the call time — non-decreasing
across calls under a monotone clock — and appends exactly one
`game_access` event carrying the activity identifier. -/
theorem track_access_monotonic (s : SysState) (aid : String)
    (uid : Option String) (times : Nat → Nat) (N : Nat) (hInv : SysInv s)
    (haid : adapt_activity_id aid = .ok aid) (_hN : 1 ≤ N)
    (hMono : ∀ i j, i ≤ j → times i ≤ times j) :
    ∀ k, k < N → ∃ sk sk',
      trackN s times aid uid true k = (sk, none) ∧
      trackN s times aid uid true (k + 1) = (sk', none) ∧
      track_game_access sk (times k) aid uid true = (sk', none) ∧
      instCount sk' aid = instCount sk aid + 1 ∧
      instCount sk' aid = instCount s aid + (k + 1) ∧
      lastAccessOf sk' aid = some (times k) ∧
      sk'.disk.events = sk.disk.events ++
        [{ ts := times k, type := "game_access", activityID := some aid,
           userID := adapt_user_id uid }] ∧
      (∀ j, j < k → ∃ sj',
        trackN s times aid uid true (j + 1) = (sj', none) ∧
        lastAccessOf sj' aid = some (times j) ∧ times j ≤ times k) := by
  intro k hk
  obtain ⟨sk, hk1, hik, hrk, hck, hek, _⟩ :=
    trackN_spec s times aid aid uid hInv haid k
  obtain ⟨s', hstep, hinv', hr', he', hc', hl', _⟩ :=
    track_step sk (times k) aid aid uid hik haid
  refine ⟨sk, s', hk1, ?_, hstep, hc', by omega, hl', he', ?_⟩
  · simp only [trackN, hk1, hstep]
  · intro j hj
    obtain ⟨sj, hj1, _, _, _, _, hjl⟩ :=
      trackN_spec s times aid aid uid hInv haid (j + 1)
    exact ⟨sj, hj1, hjl j rfl, hMono j k (Nat.le_of_lt hj)⟩

/-- Witness for C6: one call (`N = 1`, `k = 0`) on the fresh state at
clock `fun k => k`: the call succeeds, the counter goes from 0 to 1, the
`last_access` is the call time 0, and one `game_access` event for
`TESTE123` is appended. -/
theorem track_access_monotonic_witness :
    ∃ sk sk',
      trackN SysState.init (fun k => k) "TESTE123" (some "u1") true 0 =
        (sk, none) ∧
      trackN SysState.init (fun k => k) "TESTE123" (some "u1") true 1 =
        (sk', none) ∧
      track_game_access sk 0 "TESTE123" (some "u1") true = (sk', none) ∧
      instCount sk' "TESTE123" = instCount sk "TESTE123" + 1 ∧
      instCount sk' "TESTE123" = instCount SysState.init "TESTE123" + 1 ∧
      lastAccessOf sk' "TESTE123" = some 0 ∧
      sk'.disk.events = sk.disk.events ++
        [{ ts := 0, type := "game_access", activityID := some "TESTE123",
           userID := adapt_user_id (some "u1") }] ∧
      (∀ j, j < 0 → ∃ sj',
        trackN SysState.init (fun k => k) "TESTE123" (some "u1") true
          (j + 1) = (sj', none) ∧
        lastAccessOf sj' "TESTE123" = some j ∧ j ≤ 0) :=
  track_access_monotonic SysState.init "TESTE123" (some "u1")
    (fun k => k) 1 sysInv_init rfl (by decide)
    (fun i j h => h) 0 (by decide)

/-- C9: in every state reachable through the facade (successful flushes),
each registry binding and each persisted instance record derive the
instance id deterministically as `inst_` + activity id (so a persisted
record is never reassigned to a different activity); moreover every
resolution of a normalized activity id returns that derived id, and a
first resolution (no persisted record) persists a record with exactly
that id, the activity id, `access_count = 0` and `last_access = null`. -/
theorem instance_id_derivation_invariant :
    (∀ s, ReachableFacade s →
      (∀ p ∈ s.registry, p.2 = "inst_" ++ p.1) ∧
      (∀ p ∈ s.disk.instances,
        p.2.instance_id = p.1 ∧ p.1 = "inst_" ++ p.2.activityID)) ∧
    (∀ s now aid uid baseUrl pub, SysInv s →
      adapt_activity_id aid = .ok aid →
      ∃ s' out,
        resolve_user_url s now aid uid baseUrl pub true = (s', .ok out) ∧
        out.instance_id = "inst_" ++ aid ∧ out.activityID = aid ∧
        (alookup s.disk.instances ("inst_" ++ aid) = none →
          alookup s'.disk.instances ("inst_" ++ aid) =
            some { instance_id := "inst_" ++ aid
                   activityID := aid
                   created_at := now
                   game_config := WordSearchGameBuilder.build
                   last_access := none
                   access_count := 0 })) := by
  constructor
  · intro s hs
    have h := reachable_inv s hs
    exact ⟨h.2.1, h.2.2⟩
  · intro s now aid uid baseUrl pub hInv haid
    obtain ⟨s', out, heq, _, hiid, haid', hnew, _⟩ :=
      resolve_step s now aid aid uid baseUrl pub hInv haid
    exact ⟨s', out, heq, hiid, haid', hnew⟩

/-- Witness for C9: the fresh state is reachable and trivially satisfies
the derivation invariant, and resolving `TESTE123` at time 5 on the
fresh state returns instance id `inst_TESTE123` and persists the
zero-count record with `last_access = null`. -/
theorem instance_id_derivation_invariant_witness :
    ((∀ p ∈ SysState.init.registry, p.2 = "inst_" ++ p.1) ∧
     (∀ p ∈ SysState.init.disk.instances,
        p.2.instance_id = p.1 ∧ p.1 = "inst_" ++ p.2.activityID)) ∧
    (∃ s' out,
      resolve_user_url SysState.init 5 "TESTE123" none "" none true =
        (s', .ok out) ∧
      out.instance_id = "inst_" ++ "TESTE123" ∧
      out.activityID = "TESTE123" ∧
      (alookup SysState.init.disk.instances ("inst_" ++ "TESTE123") = none →
        alookup s'.disk.instances ("inst_" ++ "TESTE123") =
          some { instance_id := "inst_" ++ "TESTE123"
                 activityID := "TESTE123"
                 created_at := 5
                 game_config := WordSearchGameBuilder.build
                 last_access := none
                 access_count := 0 })) :=
  ⟨instance_id_derivation_invariant.1 SysState.init ReachableFacade.init,
   instance_id_derivation_invariant.2 SysState.init 5 "TESTE123" none "" none
     sysInv_init rfl⟩

/-- C3 counterexample: `"zzz"` is recognized neither by the
specification's query-name list nor by the analytics proxy's keys, yet
the facade's query operation returns the fixed mock dataset — a
non-empty result whose rows each carry six populated quantitative
fields — rather than an empty/default result. -/
theorem unknown_query_returns_mock_counterexample :
    ("zzz" ∉ specQueryNames ∧ "zzz" ∉ analyticsProxyQueryKeys) ∧
    query_analytics ⟨"TESTE123", none, "zzz", []⟩ = mockData ∧
    (query_analytics ⟨"TESTE123", none, "zzz", []⟩).map
        (fun row => row.quantAnalytics.length) = [6, 6] := by
  exact ⟨by decide, rfl, rfl⟩

/-- C3 amended: an unknown query name never raises an error. In
`AnalyticsPersistenceProxy.get_analytics_for_activity` it degrades to
per-student entries with no analytic value fields populated; in the
facade's `query_analytics` the query name is ignored entirely and the
same fixed mock dataset is returned as for any other name. -/
theorem unknown_query_degrades (q aid : String) (p : AnalyticsPayload)
    (hq : q ∉ analyticsProxyQueryKeys) :
    (∀ sa ∈ get_analytics_for_activity ⟨aid, q⟩,
        sa.quantAnalytics = [] ∧ sa.qualAnalytics = []) ∧
    query_analytics p = mockData := by
  constructor
  · simp only [analyticsProxyQueryKeys, List.mem_cons, List.mem_singleton,
      not_or] at hq
    obtain ⟨h1, h2, h3, h4, h5⟩ := hq
    intro sa hsa
    simp only [get_analytics_for_activity, List.mem_map] at hsa
    obtain ⟨row, _, hrow⟩ := hsa
    subst hrow
    simp [h1, h2, h3, h4, h5]
  · rfl

/-- Witness for C3 amended: at the unknown name `"zzz"`, the analytics
proxy yields rows with empty value lists for `TESTE123`, and the facade
returns the mock dataset. -/
theorem unknown_query_degrades_witness :
    ("zzz" ∉ analyticsProxyQueryKeys) ∧
    ((∀ sa ∈ get_analytics_for_activity ⟨"TESTE123", "zzz"⟩,
        sa.quantAnalytics = [] ∧ sa.qualAnalytics = []) ∧
     query_analytics ⟨"TESTE123", none, "zzz", []⟩ = mockData) :=
  ⟨by decide,
   unknown_query_degrades "zzz" "TESTE123" ⟨"TESTE123", none, "zzz", []⟩
     (by decide)⟩

/-- C4 counterexample: starting from the empty state, three successful
track-access calls on `TESTE123` do store exactly 3 events for that
activity, yet the analytics query with name `events_count` returns the
fixed mock dataset, which contains no `events_count` field at all — the
query result does not report the stored event count. -/
theorem events_count_query_counterexample :
    (trackN SysState.init (fun k => k) "TESTE123" (some "u1") true 3).2 =
      none ∧
    ((trackN SysState.init (fun k => k) "TESTE123" (some "u1") true
        3).1.disk.events.filter
      (fun e => e.activityID == some "TESTE123")).length = 3 ∧
    query_analytics ⟨"TESTE123", some "u1", "events_count", []⟩ =
      mockData ∧
    (mockData.all fun row =>
      (row.quantAnalytics ++ row.qualAnalytics).all
        (fun v => v.name != "events_count")) = true := by
  exact ⟨by decide, by decide, rfl, by decide⟩

/-- C4 amended: the facade's analytics query ignores the query name and
the stored events, returning the fixed mock dataset for every payload;
the mock dataset has no `events_count` field, even though after three
track-access calls on `TESTE123` the durable store does hold exactly 3
`game_access` events for that activity. -/
theorem analytics_query_ignores_stored_events (p : AnalyticsPayload) :
    query_analytics p = mockData ∧
    (mockData.all fun row =>
      (row.quantAnalytics ++ row.qualAnalytics).all
        (fun v => v.name != "events_count")) = true ∧
    (trackN SysState.init (fun k => k) "TESTE123" (some "u1") true 3).2 =
      none ∧
    ((trackN SysState.init (fun k => k) "TESTE123" (some "u1") true
        3).1.disk.events.filter
      (fun e => e.activityID == some "TESTE123")).length = 3 := by
  exact ⟨rfl, by decide, by decide, by decide⟩
